import Mathlib

/-!
Shallow embedding of the Wake-on-LAN package `wol` (magic-packet codec and
UDP broadcast transport), together with theorems checking its specification.

Bytes are modelled as `Nat`; byte slices as `List Nat`.  The Go functions
`NewMagicPacket`, `HardwareAddr`, `IsMagicPacket`, `Wake` and `WakeString`
are translated directly from the source.  Network effects in `Wake` are
modelled by an explicit environment (`NetEnv`) supplying the results of the
dial, write and close operations, and a trace of network events records what
the call did with the socket.
-/

namespace Wol

/-- Embedding of Go `bytes.Repeat b n`: `n` copies of `b` concatenated. -/
def bytesRepeat (b : List Nat) : Nat → List Nat
  | 0 => []
  | Nat.succ m => b ++ bytesRepeat b m

/-- `const hwAddrN = 16` -/
def hwAddrN : Nat := 16

/-- `var bcastAddr = []byte{255, 255, 255, 255, 255, 255}` -/
def bcastAddr : List Nat := [255, 255, 255, 255, 255, 255]

/-- `var bcastAddrOff = len(bcastAddr)` -/
def bcastAddrOff : Nat := bcastAddr.length

/-- Method `MagicPacket.HardwareAddr`: returns `p[bcastAddrOff : bcastAddrOff*2]`,
the 6 bytes at offsets [6,12). -/
def HardwareAddr (p : List Nat) : List Nat :=
  (p.drop bcastAddrOff).take bcastAddrOff

/-- `NewMagicPacket`: a buffer of `bcastAddrOff + hwAddrN*len(hwAddr)` bytes,
the broadcast bytes followed by `bytes.Repeat(hwAddr, hwAddrN)`. -/
def NewMagicPacket (hwAddr : List Nat) : List Nat :=
  bcastAddr ++ bytesRepeat hwAddr hwAddrN

/-- `IsMagicPacket`: length gate, broadcast bytes at the front, then the rest
must equal the candidate hardware address repeated `hwAddrN` times. -/
def IsMagicPacket (b : List Nat) : Bool :=
  if b.length ≠ 102 then false
  else if b.take 6 ≠ bcastAddr then false
  else b.drop bcastAddrOff = bytesRepeat (HardwareAddr b) hwAddrN

/-- Go slice expression `b[i:j]`: defined (as `some`) exactly when
`i ≤ j ≤ len b`; out of range is a run-time panic, modelled as `none`. -/
def goSlice (b : List Nat) (i j : Nat) : Option (List Nat) :=
  if i ≤ j ∧ j ≤ b.length then some ((b.take j).drop i) else none

/-- `HardwareAddr` with the slice bound check made explicit. -/
def HardwareAddrChecked (p : List Nat) : Option (List Nat) :=
  goSlice p bcastAddrOff (bcastAddrOff * 2)

/-- `IsMagicPacket` with every slice bound check made explicit: `none` means
the Go code would have panicked with an out-of-range access. -/
def IsMagicPacketChecked (b : List Nat) : Option Bool :=
  if b.length ≠ 102 then some false
  else match goSlice b 0 6 with
    | none => none
    | some pre =>
      if pre ≠ bcastAddr then some false
      else match HardwareAddrChecked b with
        | none => none
        | some hwAddr =>
          match goSlice b bcastAddrOff b.length with
          | none => none
          | some rest => some (rest = bytesRepeat hwAddr hwAddrN)

/-! ### Transport: `Wake` and `WakeString`

`Wake` performs network effects through `net.DialUDP`, `conn.Write` and
`conn.Close`.  These are modelled by an environment `NetEnv` giving the
outcome of each operation (opaque error values are numbered), and the calls
the function makes on the network are recorded in a trace of `NetEvent`s. -/

/-- A `net.UDPAddr`: an IP (list of bytes) and a port.  A zero `Port` field in
the Go struct literal is the value 0. -/
structure UDPAddr where
  ip : List Nat
  port : Nat
deriving DecidableEq

/-- `net.IPv4bcast`, the limited broadcast address 255.255.255.255. -/
def IPv4bcast : List Nat := [255, 255, 255, 255]

/-- Network calls made by `Wake`, in order. -/
inductive NetEvent where
  | dialUDP (laddr : Option UDPAddr) (raddr : UDPAddr)
  | write (data : List Nat)
  | close
deriving DecidableEq

/-- Outcomes the network hands back to `Wake`: the dial either fails with an
error (numbered) or succeeds; the write returns a byte count and an optional
error; the close returns an optional error. -/
structure NetEnv where
  dialErr : Option Nat
  writeN : Nat
  writeErr : Option Nat
  closeErr : Option Nat

/-- Errors `Wake` can return: an error propagated from the network layer, or
the distinct `io.ErrShortWrite`. -/
inductive WakeErr where
  | netE (e : Nat)
  | errShortWrite
deriving DecidableEq

/-- `Wake src hwAddr` translated line by line; the environment supplies the
results of the three network operations and the trace records them.
`laddr` is `&net.UDPAddr{IP: src}` when `src` is non-nil, else nil;
`raddr` is `&net.UDPAddr{IP: net.IPv4bcast, Port: 9}`. -/
def Wake (src : Option (List Nat)) (hwAddr : List Nat) (env : NetEnv) :
    Option WakeErr × List NetEvent :=
  let laddr : Option UDPAddr := src.map fun ip => { ip := ip, port := 0 }
  let raddr : UDPAddr := { ip := IPv4bcast, port := 9 }
  let tr0 : List NetEvent := [NetEvent.dialUDP laddr raddr]
  match env.dialErr with
  | some e => (some (WakeErr.netE e), tr0)
  | none =>
    let p := NewMagicPacket hwAddr
    let tr1 := tr0 ++ [NetEvent.write p]
    let n := env.writeN
    let err := env.writeErr
    if err = none ∧ n < p.length then
      (some WakeErr.errShortWrite, tr1)
    else
      let tr2 := tr1 ++ [NetEvent.close]
      match env.closeErr with
      | some e1 => (some (WakeErr.netE e1), tr2)
      | none => (err.map WakeErr.netE, tr2)

/-- Errors `WakeString` can return: a parse-phase error carrying its message
text, or an error from `Wake`. -/
inductive WakeStringErr where
  | parse (msg : String)
  | fromWake (e : WakeErr)
deriving DecidableEq

/-- `WakeString srcIP macAddr` translated line by line.  The standard-library
parsers `net.ParseMAC` (returning the address or an error message) and
`net.ParseIP` (returning nil on failure) are opaque external calls, taken as
parameters.  On an IP parse failure the code builds
`fmt.Errorf("invalid ip: %s", srcIP)`. -/
def WakeString (parseMAC : String → Except String (List Nat))
    (parseIP : String → Option (List Nat)) (srcIP macAddr : String)
    (env : NetEnv) : Option WakeStringErr × List NetEvent :=
  match parseMAC macAddr with
  | Except.error e => (some (WakeStringErr.parse e), [])
  | Except.ok hwAddr =>
    if srcIP ≠ "" then
      match parseIP srcIP with
      | none => (some (WakeStringErr.parse ("invalid ip: " ++ srcIP)), [])
      | some src =>
        let r := Wake (some src) hwAddr env
        (r.1.map WakeStringErr.fromWake, r.2)
    else
      let r := Wake none hwAddr env
      (r.1.map WakeStringErr.fromWake, r.2)

/-- Selects the write events of a trace. -/
def isWriteEvent : NetEvent → Bool
  | NetEvent.write _ => true
  | _ => false

/-! ### Basic facts about the codec definitions -/

theorem bytesRepeat_length (b : List Nat) (n : Nat) :
    (bytesRepeat b n).length = n * b.length := by
  induction n with
  | zero => simp [bytesRepeat]
  | succ m ih => simp [bytesRepeat, ih, Nat.succ_mul, Nat.add_comm]

theorem bytesRepeat_succ (b : List Nat) (m : Nat) :
    bytesRepeat b (m + 1) = b ++ bytesRepeat b m := rfl

theorem NewMagicPacket_length (h : List Nat) :
    (NewMagicPacket h).length = 6 + 16 * h.length := by
  simp [NewMagicPacket, bytesRepeat_length, bcastAddr, hwAddrN]
  omega

theorem NewMagicPacket_take (h : List Nat) :
    (NewMagicPacket h).take 6 = bcastAddr := by
  simp [NewMagicPacket, bcastAddr]

theorem NewMagicPacket_drop (h : List Nat) :
    (NewMagicPacket h).drop 6 = bytesRepeat h hwAddrN := by
  have hb : bcastAddr.length = 6 := rfl
  simp [NewMagicPacket, List.drop_append_of_le_length, bcastAddr]

theorem HardwareAddr_NewMagicPacket (h : List Nat) (hlen : h.length = 6) :
    HardwareAddr (NewMagicPacket h) = h := by
  have h6 : bcastAddrOff = 6 := rfl
  unfold HardwareAddr
  rw [h6, NewMagicPacket_drop,
    show bytesRepeat h hwAddrN = h ++ bytesRepeat h 15 from rfl, ← hlen]
  exact List.take_left h (bytesRepeat h 15)

theorem isMagicPacket_iff (b : List Nat) :
    IsMagicPacket b = true ↔
      b.length = 102 ∧ b.take 6 = bcastAddr ∧
        b.drop bcastAddrOff = bytesRepeat (HardwareAddr b) hwAddrN := by
  unfold IsMagicPacket
  by_cases h1 : b.length = 102
  · by_cases h2 : b.take 6 = bcastAddr
    · simp [h1, h2]
    · simp [h1, h2]
  · simp [h1]

theorem isMagicPacket_NewMagicPacket (h : List Nat) (hlen : h.length = 6) :
    IsMagicPacket (NewMagicPacket h) = true := by
  rw [isMagicPacket_iff]
  refine ⟨by rw [NewMagicPacket_length, hlen], NewMagicPacket_take h, ?_⟩
  rw [HardwareAddr_NewMagicPacket h hlen, show bcastAddrOff = 6 from rfl,
    NewMagicPacket_drop]

theorem isMagicPacketChecked_eq (b : List Nat) :
    IsMagicPacketChecked b = some (IsMagicPacket b) := by
  by_cases h1 : b.length = 102
  · have hoff : bcastAddrOff = 6 := rfl
    have g1 : goSlice b 0 6 = some (b.take 6) := by
      unfold goSlice
      rw [if_pos (by omega), List.drop_zero]
    have g2 : goSlice b bcastAddrOff (bcastAddrOff * 2) = some (HardwareAddr b) := by
      unfold goSlice
      rw [hoff, if_pos (by omega), HardwareAddr, hoff,
        show (6 : Nat) * 2 = 12 from rfl, List.drop_take]
    have g3 : goSlice b bcastAddrOff b.length = some (b.drop bcastAddrOff) := by
      unfold goSlice
      rw [if_pos (by rw [hoff]; omega), List.take_length]
    have hne : ¬b.length ≠ 102 := not_not_intro h1
    unfold IsMagicPacketChecked IsMagicPacket HardwareAddrChecked
    rw [if_neg hne, if_neg hne, g1, g2, g3]
    by_cases h2 : b.take 6 = bcastAddr <;> simp [h2]
  · unfold IsMagicPacketChecked IsMagicPacket
    rw [if_pos h1, if_pos h1]

/-- C1: Round-trip — for every 6-byte hardware address `h`, the encoded packet
validates (`IsMagicPacket (NewMagicPacket h) = true`) and `HardwareAddr`
applied to `NewMagicPacket h` gives back `h`. -/
theorem C1_encode_roundTrip (h : List Nat) (hlen : h.length = 6) :
    IsMagicPacket (NewMagicPacket h) = true ∧
      HardwareAddr (NewMagicPacket h) = h :=
  ⟨isMagicPacket_NewMagicPacket h hlen, HardwareAddr_NewMagicPacket h hlen⟩

theorem C1_encode_roundTrip_witness :
    IsMagicPacket (NewMagicPacket [170, 187, 204, 221, 238, 255]) = true ∧
      HardwareAddr (NewMagicPacket [170, 187, 204, 221, 238, 255]) =
        [170, 187, 204, 221, 238, 255] :=
  C1_encode_roundTrip [170, 187, 204, 221, 238, 255] (by decide)

/-- C2: Encode layout — for every 6-byte hardware address `h`,
`NewMagicPacket h` is exactly 102 bytes, its first 6 bytes are
`FF FF FF FF FF FF`, and its remaining 96 bytes are `h` repeated 16 times;
in particular the packet for `AA:BB:CC:DD:EE:FF` is written out explicitly. -/
theorem C2_encode_layout (h : List Nat) (hlen : h.length = 6) :
    (NewMagicPacket h).length = 102 ∧
      (NewMagicPacket h).take 6 = [255, 255, 255, 255, 255, 255] ∧
      (NewMagicPacket h).drop 6 = bytesRepeat h 16 ∧
      NewMagicPacket [0xAA, 0xBB, 0xCC, 0xDD, 0xEE, 0xFF] =
        [255, 255, 255, 255, 255, 255,
         0xAA, 0xBB, 0xCC, 0xDD, 0xEE, 0xFF, 0xAA, 0xBB, 0xCC, 0xDD, 0xEE, 0xFF,
         0xAA, 0xBB, 0xCC, 0xDD, 0xEE, 0xFF, 0xAA, 0xBB, 0xCC, 0xDD, 0xEE, 0xFF,
         0xAA, 0xBB, 0xCC, 0xDD, 0xEE, 0xFF, 0xAA, 0xBB, 0xCC, 0xDD, 0xEE, 0xFF,
         0xAA, 0xBB, 0xCC, 0xDD, 0xEE, 0xFF, 0xAA, 0xBB, 0xCC, 0xDD, 0xEE, 0xFF,
         0xAA, 0xBB, 0xCC, 0xDD, 0xEE, 0xFF, 0xAA, 0xBB, 0xCC, 0xDD, 0xEE, 0xFF,
         0xAA, 0xBB, 0xCC, 0xDD, 0xEE, 0xFF, 0xAA, 0xBB, 0xCC, 0xDD, 0xEE, 0xFF,
         0xAA, 0xBB, 0xCC, 0xDD, 0xEE, 0xFF, 0xAA, 0xBB, 0xCC, 0xDD, 0xEE, 0xFF,
         0xAA, 0xBB, 0xCC, 0xDD, 0xEE, 0xFF, 0xAA, 0xBB, 0xCC, 0xDD, 0xEE, 0xFF] := by
  refine ⟨by rw [NewMagicPacket_length, hlen], NewMagicPacket_take h,
    NewMagicPacket_drop h, by decide⟩

theorem C2_encode_layout_witness :
    (NewMagicPacket [1, 2, 3, 4, 5, 6]).length = 102 ∧
      (NewMagicPacket [1, 2, 3, 4, 5, 6]).take 6 = [255, 255, 255, 255, 255, 255] ∧
      (NewMagicPacket [1, 2, 3, 4, 5, 6]).drop 6 = bytesRepeat [1, 2, 3, 4, 5, 6] 16 ∧
      NewMagicPacket [0xAA, 0xBB, 0xCC, 0xDD, 0xEE, 0xFF] =
        [255, 255, 255, 255, 255, 255,
         0xAA, 0xBB, 0xCC, 0xDD, 0xEE, 0xFF, 0xAA, 0xBB, 0xCC, 0xDD, 0xEE, 0xFF,
         0xAA, 0xBB, 0xCC, 0xDD, 0xEE, 0xFF, 0xAA, 0xBB, 0xCC, 0xDD, 0xEE, 0xFF,
         0xAA, 0xBB, 0xCC, 0xDD, 0xEE, 0xFF, 0xAA, 0xBB, 0xCC, 0xDD, 0xEE, 0xFF,
         0xAA, 0xBB, 0xCC, 0xDD, 0xEE, 0xFF, 0xAA, 0xBB, 0xCC, 0xDD, 0xEE, 0xFF,
         0xAA, 0xBB, 0xCC, 0xDD, 0xEE, 0xFF, 0xAA, 0xBB, 0xCC, 0xDD, 0xEE, 0xFF,
         0xAA, 0xBB, 0xCC, 0xDD, 0xEE, 0xFF, 0xAA, 0xBB, 0xCC, 0xDD, 0xEE, 0xFF,
         0xAA, 0xBB, 0xCC, 0xDD, 0xEE, 0xFF, 0xAA, 0xBB, 0xCC, 0xDD, 0xEE, 0xFF,
         0xAA, 0xBB, 0xCC, 0xDD, 0xEE, 0xFF, 0xAA, 0xBB, 0xCC, 0xDD, 0xEE, 0xFF] :=
  C2_encode_layout [1, 2, 3, 4, 5, 6] (by decide)

/-- C6: Length gate — any byte sequence whose length is not 102 is rejected,
and on every input the checked evaluation (with explicit slice bound checks)
returns a value, never an out-of-range panic: the length check guards all
indexing. -/
theorem C6_length_gate (b : List Nat) :
    (b.length ≠ 102 → IsMagicPacket b = false ∧ IsMagicPacketChecked b = some false) ∧
      IsMagicPacketChecked b ≠ none := by
  constructor
  · intro hne
    have hfalse : IsMagicPacket b = false := by
      unfold IsMagicPacket
      simp [hne]
    exact ⟨hfalse, by rw [isMagicPacketChecked_eq, hfalse]⟩
  · rw [isMagicPacketChecked_eq]
    simp

theorem C6_length_gate_witness :
    IsMagicPacket [] = false ∧ IsMagicPacketChecked [] = some false :=
  (C6_length_gate []).1 (by decide)

theorem getElem?_bytesRepeat (b : List Nat) (n : Nat) :
    ∀ j, j < n * b.length → (bytesRepeat b n)[j]? = b[j % b.length]? := by
  induction n with
  | zero => intro j hj; omega
  | succ m ih =>
    intro j hj
    rw [Nat.succ_mul] at hj
    rw [bytesRepeat_succ]
    by_cases hlt : j < b.length
    · rw [List.getElem?_append_left hlt, Nat.mod_eq_of_lt hlt]
    · push_neg at hlt
      rw [List.getElem?_append_right hlt, Nat.mod_eq_sub_mod hlt]
      exact ih (j - b.length) (by omega)

theorem hardwareAddr_length (b : List Nat) (hlen : b.length = 102) :
    (HardwareAddr b).length = 6 := by
  simp [HardwareAddr, hlen, bcastAddrOff, bcastAddr]

/-- A valid packet repeats with period 6 in its payload region. -/
theorem isMagicPacket_periodic (b : List Nat) (hb : IsMagicPacket b = true) :
    ∀ j, j < 96 → b[6 + j]? = b[6 + j % 6]? := by
  obtain ⟨hlen, -, hdrop⟩ := (isMagicPacket_iff b).1 hb
  have hdrop6 : b.drop 6 = bytesRepeat (HardwareAddr b) hwAddrN := hdrop
  have hhw : (HardwareAddr b).length = 6 := hardwareAddr_length b hlen
  intro j hj
  rw [← List.getElem?_drop b 6 j, ← List.getElem?_drop b 6 (j % 6), hdrop6]
  rw [getElem?_bytesRepeat _ _ j (by rw [hhw]; simpa [hwAddrN] using hj),
    getElem?_bytesRepeat _ _ (j % 6) (by rw [hhw]; simp [hwAddrN]; omega), hhw]
  congr 1
  omega

theorem isMagicPacket_eq_new (b : List Nat) (hb : IsMagicPacket b = true) :
    b = NewMagicPacket (HardwareAddr b) := by
  obtain ⟨hlen, htake, hdrop⟩ := (isMagicPacket_iff b).1 hb
  have hdrop6 : b.drop 6 = bytesRepeat (HardwareAddr b) hwAddrN := hdrop
  conv_lhs => rw [← List.take_append_drop 6 b]
  rw [htake, hdrop6, NewMagicPacket]

/-- Flipping one byte of the payload region of a valid packet breaks the
validation. -/
theorem flip_rejected (h : List Nat) (i v : Nat) (hlen : h.length = 6)
    (hi6 : 6 ≤ i) (hi : i < 102) (hne : (NewMagicPacket h)[i]? ≠ some v) :
    IsMagicPacket ((NewMagicPacket h).set i v) = false := by
  by_contra hcontra
  rw [Bool.not_eq_false] at hcontra
  have hbval : IsMagicPacket (NewMagicPacket h) = true :=
    isMagicPacket_NewMagicPacket h hlen
  have hblen : (NewMagicPacket h).length = 102 := by
    rw [NewMagicPacket_length, hlen]
  have hper_b := isMagicPacket_periodic (NewMagicPacket h) hbval
  have hper_c := isMagicPacket_periodic _ hcontra
  obtain ⟨j0, rfl⟩ : ∃ j0, i = 6 + j0 := ⟨i - 6, by omega⟩
  have hj0 : j0 < 96 := by omega
  have hself : ((NewMagicPacket h).set (6 + j0) v)[6 + j0]? = some v :=
    List.getElem?_set_self (by omega)
  by_cases hcase : j0 < 6
  · have e1 := hper_c (j0 + 6) (by omega)
    have e2 : (j0 + 6) % 6 = j0 := by omega
    rw [e2] at e1
    have e3 : ((NewMagicPacket h).set (6 + j0) v)[6 + (j0 + 6)]? =
        (NewMagicPacket h)[6 + (j0 + 6)]? :=
      List.getElem?_set_ne (by omega)
    have e4 := hper_b (j0 + 6) (by omega)
    rw [e2] at e4
    exact hne (by rw [← e4, ← e3, e1, hself])
  · push_neg at hcase
    have e1 := hper_c j0 hj0
    have e3 : ((NewMagicPacket h).set (6 + j0) v)[6 + j0 % 6]? =
        (NewMagicPacket h)[6 + j0 % 6]? :=
      List.getElem?_set_ne (by omega)
    have e4 := hper_b j0 hj0
    exact hne (by rw [e4, ← e3, ← e1, hself])

/-- C7: Strict structural validation — a 102-byte sequence is accepted iff its
first 6 bytes are the broadcast bytes and its payload is bytes [6,12)
repeated 16 times; 102 zero bytes are rejected, and flipping exactly one byte
in the payload region of a valid packet is rejected. -/
theorem C7_strict_validation (b : List Nat) (hlen : b.length = 102) :
    (IsMagicPacket b = true ↔
      (b.take 6 = bcastAddr ∧
        b.drop 6 = bytesRepeat ((b.drop 6).take 6) hwAddrN)) ∧
      IsMagicPacket (List.replicate 102 0) = false ∧
      (∀ h i v, h.length = 6 → 6 ≤ i → i < 102 →
        (NewMagicPacket h)[i]? ≠ some v →
        IsMagicPacket ((NewMagicPacket h).set i v) = false) := by
  refine ⟨?_, by decide, fun h i v hl h6 hi hne => flip_rejected h i v hl h6 hi hne⟩
  rw [isMagicPacket_iff]
  constructor
  · rintro ⟨-, htake, hdrop⟩
    exact ⟨htake, hdrop⟩
  · rintro ⟨htake, hdrop⟩
    exact ⟨hlen, htake, hdrop⟩

theorem C7_strict_validation_witness :
    (IsMagicPacket (NewMagicPacket [1, 2, 3, 4, 5, 6]) = true ↔
      ((NewMagicPacket [1, 2, 3, 4, 5, 6]).take 6 = bcastAddr ∧
        (NewMagicPacket [1, 2, 3, 4, 5, 6]).drop 6 =
          bytesRepeat (((NewMagicPacket [1, 2, 3, 4, 5, 6]).drop 6).take 6) hwAddrN)) ∧
      IsMagicPacket (List.replicate 102 0) = false ∧
      (∀ h i v, h.length = 6 → 6 ≤ i → i < 102 →
        (NewMagicPacket h)[i]? ≠ some v →
        IsMagicPacket ((NewMagicPacket h).set i v) = false) :=
  C7_strict_validation (NewMagicPacket [1, 2, 3, 4, 5, 6]) (by decide)

/-- C10: Completeness of validation — every accepted byte sequence is the
encoding of its own extracted hardware address, and the accepted sequences
are exactly the images of `NewMagicPacket` over 6-byte addresses. -/
theorem C10_validation_completeness (b : List Nat) :
    (IsMagicPacket b = true → b = NewMagicPacket (HardwareAddr b)) ∧
      (IsMagicPacket b = true ↔ ∃ h, h.length = 6 ∧ b = NewMagicPacket h) := by
  refine ⟨isMagicPacket_eq_new b, ⟨fun hb => ?_, ?_⟩⟩
  · have hlen : b.length = 102 := ((isMagicPacket_iff b).1 hb).1
    exact ⟨HardwareAddr b, hardwareAddr_length b hlen, isMagicPacket_eq_new b hb⟩
  · rintro ⟨h, hl, rfl⟩
    exact isMagicPacket_NewMagicPacket h hl

theorem C10_validation_completeness_witness :
    NewMagicPacket [1, 2, 3, 4, 5, 6] =
      NewMagicPacket (HardwareAddr (NewMagicPacket [1, 2, 3, 4, 5, 6])) :=
  (C10_validation_completeness (NewMagicPacket [1, 2, 3, 4, 5, 6])).1 (by decide)

/-! ### Transport claims -/

/-- C3, counterexample: with a successful dial, a write failing with error 1
and a close failing with error 2, `Wake` reports the close error 2, not the
earlier write error 1 — the claim that the earlier write error is reported
is false on the code (`err = err1` overwrites unconditionally). -/
theorem C3_counterexample :
    (Wake none [1, 2, 3, 4, 5, 6]
        { dialErr := none, writeN := 102, writeErr := some 1, closeErr := some 2 }).1 =
      some (WakeErr.netE 2) ∧
      (Wake none [1, 2, 3, 4, 5, 6]
        { dialErr := none, writeN := 102, writeErr := some 1, closeErr := some 2 }).1 ≠
        some (WakeErr.netE 1) := by
  constructor
  · rfl
  · decide

/-- C3, amended: when the write fails and the close also fails, `Wake`
reports the close error (the later failure overrides the earlier one); the
write error is reported only when the close succeeds. -/
theorem C3_close_error_overrides (src : Option (List Nat)) (hwAddr : List Nat)
    (env : NetEnv) (w : Nat) (hd : env.dialErr = none)
    (hwe : env.writeErr = some w) :
    (∀ c, env.closeErr = some c → (Wake src hwAddr env).1 = some (WakeErr.netE c)) ∧
      (env.closeErr = none → (Wake src hwAddr env).1 = some (WakeErr.netE w)) := by
  constructor
  · intro c hc
    simp [Wake, hd, hwe, hc]
  · intro hc
    simp [Wake, hd, hwe, hc]

theorem C3_close_error_overrides_witness :
    (∀ c, (({ dialErr := none, writeN := 102, writeErr := some 1, closeErr := some 2 } :
          NetEnv)).closeErr = some c →
        (Wake none [1, 2, 3, 4, 5, 6]
          { dialErr := none, writeN := 102, writeErr := some 1, closeErr := some 2 }).1 =
          some (WakeErr.netE c)) ∧
      ((({ dialErr := none, writeN := 102, writeErr := some 1, closeErr := some 2 } :
          NetEnv)).closeErr = none →
        (Wake none [1, 2, 3, 4, 5, 6]
          { dialErr := none, writeN := 102, writeErr := some 1, closeErr := some 2 }).1 =
          some (WakeErr.netE 1)) :=
  C3_close_error_overrides none [1, 2, 3, 4, 5, 6]
    { dialErr := none, writeN := 102, writeErr := some 1, closeErr := some 2 }
    1 rfl rfl

/-- C4, counterexample: with a successful dial and a write that reports no
error but accepts 0 of the 102 bytes, `Wake` returns the short-write error
without ever closing the association — the socket is leaked on that path. -/
theorem C4_counterexample :
    (Wake none [1, 2, 3, 4, 5, 6]
        { dialErr := none, writeN := 0, writeErr := none, closeErr := none }).1 =
      some WakeErr.errShortWrite ∧
      NetEvent.close ∉
        (Wake none [1, 2, 3, 4, 5, 6]
          { dialErr := none, writeN := 0, writeErr := none, closeErr := none }).2 := by
  constructor
  · rfl
  · decide

/-- C4, amended: after a successful dial, `Wake` closes the association on
every exit path except the short-write path: when the write reports no error
but accepts fewer than the packet's bytes, it returns the short-write error
without closing. -/
theorem C4_close_except_short_write (src : Option (List Nat)) (hwAddr : List Nat)
    (env : NetEnv) (hd : env.dialErr = none) :
    (¬(env.writeErr = none ∧ env.writeN < (NewMagicPacket hwAddr).length) →
        NetEvent.close ∈ (Wake src hwAddr env).2) ∧
      (env.writeErr = none → env.writeN < (NewMagicPacket hwAddr).length →
        NetEvent.close ∉ (Wake src hwAddr env).2 ∧
          (Wake src hwAddr env).1 = some WakeErr.errShortWrite) := by
  constructor
  · intro hns
    rcases hcl : env.closeErr with _ | c <;>
      simp [Wake, hd, hns, hcl]
  · intro hwe hn
    simp [Wake, hd, hwe, hn]

theorem C4_close_except_short_write_witness :
    (¬((({ dialErr := none, writeN := 0, writeErr := none, closeErr := none } :
            NetEnv)).writeErr = none ∧
        (({ dialErr := none, writeN := 0, writeErr := none, closeErr := none } :
            NetEnv)).writeN < (NewMagicPacket [1, 2, 3, 4, 5, 6]).length) →
        NetEvent.close ∈
          (Wake none [1, 2, 3, 4, 5, 6]
            { dialErr := none, writeN := 0, writeErr := none, closeErr := none }).2) ∧
      ((({ dialErr := none, writeN := 0, writeErr := none, closeErr := none } :
            NetEnv)).writeErr = none →
        (({ dialErr := none, writeN := 0, writeErr := none, closeErr := none } :
            NetEnv)).writeN < (NewMagicPacket [1, 2, 3, 4, 5, 6]).length →
        NetEvent.close ∉
          (Wake none [1, 2, 3, 4, 5, 6]
            { dialErr := none, writeN := 0, writeErr := none, closeErr := none }).2 ∧
          (Wake none [1, 2, 3, 4, 5, 6]
            { dialErr := none, writeN := 0, writeErr := none, closeErr := none }).1 =
            some WakeErr.errShortWrite) :=
  C4_close_except_short_write none [1, 2, 3, 4, 5, 6]
    { dialErr := none, writeN := 0, writeErr := none, closeErr := none } rfl

/-- C5: Short-write handling — for a 6-byte address, when the write reports
no error and accepts fewer than 102 bytes, `Wake` returns the distinct
short-write error; and whenever the write reports an error, the result is
never the short-write error (the short-write check runs only on a nil write
error). -/
theorem C5_short_write (src : Option (List Nat)) (hwAddr : List Nat)
    (env : NetEnv) (hlen : hwAddr.length = 6) (hd : env.dialErr = none) :
    (env.writeErr = none → env.writeN < 102 →
        (Wake src hwAddr env).1 = some WakeErr.errShortWrite) ∧
      (∀ w, env.writeErr = some w →
        (Wake src hwAddr env).1 ≠ some WakeErr.errShortWrite) := by
  have hplen : (NewMagicPacket hwAddr).length = 102 := by
    rw [NewMagicPacket_length, hlen]
  constructor
  · intro hwe hn
    simp [Wake, hd, hwe, hplen, hn]
  · intro w hwe
    rcases hcl : env.closeErr with _ | c <;>
      simp [Wake, hd, hwe, hcl]

theorem C5_short_write_witness :
    ((({ dialErr := none, writeN := 50, writeErr := none, closeErr := none } :
          NetEnv)).writeErr = none →
      (({ dialErr := none, writeN := 50, writeErr := none, closeErr := none } :
          NetEnv)).writeN < 102 →
        (Wake none [1, 2, 3, 4, 5, 6]
          { dialErr := none, writeN := 50, writeErr := none, closeErr := none }).1 =
          some WakeErr.errShortWrite) ∧
      (∀ w, (({ dialErr := none, writeN := 50, writeErr := none, closeErr := none } :
          NetEnv)).writeErr = some w →
        (Wake none [1, 2, 3, 4, 5, 6]
          { dialErr := none, writeN := 50, writeErr := none, closeErr := none }).1 ≠
          some WakeErr.errShortWrite) :=
  C5_short_write none [1, 2, 3, 4, 5, 6]
    { dialErr := none, writeN := 50, writeErr := none, closeErr := none }
    (by decide) rfl

/-- C9: Addressing — every invocation of `Wake` dials with the remote
endpoint fixed to the limited-broadcast address 255.255.255.255 on UDP
port 9 and a local endpoint bound to the source IP exactly when one is given;
after a successful dial it writes exactly one datagram, the 102-byte magic
packet for the 6-byte address, and after a failed dial it writes nothing. -/
theorem C9_addressing (src : Option (List Nat)) (hwAddr : List Nat)
    (env : NetEnv) (hlen : hwAddr.length = 6) :
    (Wake src hwAddr env).2.head? =
        some (NetEvent.dialUDP (src.map fun ip => { ip := ip, port := 0 })
          { ip := IPv4bcast, port := 9 }) ∧
      (env.dialErr = none →
        (Wake src hwAddr env).2.filter isWriteEvent =
          [NetEvent.write (NewMagicPacket hwAddr)]) ∧
      (∀ e, env.dialErr = some e →
        (Wake src hwAddr env).2.filter isWriteEvent = []) ∧
      (NewMagicPacket hwAddr).length = 102 := by
  have hplen : (NewMagicPacket hwAddr).length = 102 := by
    rw [NewMagicPacket_length, hlen]
  refine ⟨?_, ?_, ?_, hplen⟩
  · rcases hd : env.dialErr with _ | e
    · by_cases hsw : env.writeErr = none ∧ env.writeN < (NewMagicPacket hwAddr).length
      · simp [Wake, hd, hsw]
      · rcases hcl : env.closeErr with _ | c <;>
          simp [Wake, hd, hsw, hcl]
    · simp [Wake, hd]
  · intro hd
    by_cases hsw : env.writeErr = none ∧ env.writeN < (NewMagicPacket hwAddr).length
    · simp [Wake, hd, hsw, isWriteEvent]
    · rcases hcl : env.closeErr with _ | c <;>
        simp [Wake, hd, hsw, hcl, isWriteEvent]
  · intro e hd
    simp [Wake, hd, isWriteEvent]

theorem C9_addressing_witness :
    (Wake (some [192, 168, 0, 2]) [1, 2, 3, 4, 5, 6]
          { dialErr := none, writeN := 102, writeErr := none, closeErr := none }).2.head? =
        some (NetEvent.dialUDP
          ((some [192, 168, 0, 2]).map fun ip => { ip := ip, port := 0 })
          { ip := IPv4bcast, port := 9 }) ∧
      ((({ dialErr := none, writeN := 102, writeErr := none, closeErr := none } :
            NetEnv)).dialErr = none →
        (Wake (some [192, 168, 0, 2]) [1, 2, 3, 4, 5, 6]
          { dialErr := none, writeN := 102, writeErr := none, closeErr := none }).2.filter
            isWriteEvent =
          [NetEvent.write (NewMagicPacket [1, 2, 3, 4, 5, 6])]) ∧
      (∀ e, (({ dialErr := none, writeN := 102, writeErr := none, closeErr := none } :
            NetEnv)).dialErr = some e →
        (Wake (some [192, 168, 0, 2]) [1, 2, 3, 4, 5, 6]
          { dialErr := none, writeN := 102, writeErr := none, closeErr := none }).2.filter
            isWriteEvent = []) ∧
      (NewMagicPacket [1, 2, 3, 4, 5, 6]).length = 102 :=
  C9_addressing (some [192, 168, 0, 2]) [1, 2, 3, 4, 5, 6]
    { dialErr := none, writeN := 102, writeErr := none, closeErr := none }
    (by decide)

/-- C8: Text-address variant — when the MAC text fails to parse, `WakeString`
returns the parser's error unchanged with an empty network trace (no network
resource touched, `Wake` not invoked); when the MAC parses, the source text
is non-empty and fails to parse, it returns the error message
`"invalid ip: " ++ srcIP`, which contains the offending literal, again with
an empty trace.  (Go's `net.ParseMAC` error is `&AddrError{Addr: s, ...}`,
whose message contains the literal `s`; that message is propagated
unchanged, as the first conjunct states.) -/
theorem C8_parse_failures (parseMAC : String → Except String (List Nat))
    (parseIP : String → Option (List Nat)) (srcIP macAddr : String)
    (env : NetEnv) :
    (∀ msg, parseMAC macAddr = Except.error msg →
        WakeString parseMAC parseIP srcIP macAddr env =
          (some (WakeStringErr.parse msg), [])) ∧
      (∀ hwAddr, parseMAC macAddr = Except.ok hwAddr → srcIP ≠ "" →
        parseIP srcIP = none →
        WakeString parseMAC parseIP srcIP macAddr env =
            (some (WakeStringErr.parse ("invalid ip: " ++ srcIP)), []) ∧
          ∃ s1 s2, "invalid ip: " ++ srcIP = s1 ++ srcIP ++ s2) := by
  constructor
  · intro msg hmac
    simp [WakeString, hmac]
  · intro hwAddr hmac hne hip
    refine ⟨by simp [WakeString, hmac, hne, hip], "invalid ip: ", "", by simp⟩

theorem C8_parse_failures_witness :
    WakeString (fun s => Except.error ("address " ++ s ++ ": invalid MAC address"))
        (fun _ => none) "not-an-ip" "junk"
        { dialErr := none, writeN := 102, writeErr := none, closeErr := none } =
      (some (WakeStringErr.parse "address junk: invalid MAC address"), []) :=
  (C8_parse_failures
      (fun s => Except.error ("address " ++ s ++ ": invalid MAC address"))
      (fun _ => none) "not-an-ip" "junk"
      { dialErr := none, writeN := 102, writeErr := none, closeErr := none }).1
    "address junk: invalid MAC address" rfl

end Wol
